import Mathlib

/-!
Verification of the n-gram language-identification program
(`build_test_LM.py`).

The program keeps, per language label, a frequency model over fixed-width
character windows (a Python `Counter[str]`), scores texts by summed
log-base-10 gram probabilities, smooths with a cross-label vocabulary, and
classifies with a percent-unseen rejection threshold followed by a
running-best argmax.

Embedding conventions:
* a text and a gram are a `List Char` (a Python `str`);
* the `Counter` is a `Multiset Gram`: `Counter.update(iterable)` is multiset
  addition, `Counter.total()` is `Multiset.card`, `gram in counter` is
  `count ≠ 0` (every key ever inserted has count ≥ 1 here);
* `float` results of `math.log10` are modelled as real numbers via
  `Real.logb 10`; `0.6` is the rational `3/5`;
* Python's `ZeroDivisionError` (raised by `get_percent_unseen` when the text
  yields zero grams) is modelled by an `Option` result: `none` is the raised
  exception, and it propagates through `classify_text`.
-/

abbrev Gram := List Char

/-- The `NGramLM` class: gram width `n` and the `occurances` counter
(spelling kept from the source). -/
structure NGramLM where
  n : ℕ
  occurances : Multiset Gram
deriving DecidableEq

/-- Python `NGramLM.__init__`: a fresh model has an empty counter. -/
def NGramLM.init (n : ℕ) : NGramLM :=
  { n := n, occurances := 0 }

/-- Python `NGramLM.to_n_gram_generator`: `for i in range(len(text) - self.n + 1):
yield text[i : i + self.n]`.  Python's `range` over a non-positive bound is
empty, which `text.length + 1 - lm.n` (truncated subtraction) reproduces. -/
def NGramLM.to_n_gram_generator (lm : NGramLM) (text : List Char) : List Gram :=
  (List.range (text.length + 1 - lm.n)).map fun i => (text.drop i).take lm.n

/-- Python `NGramLM.train_on_text`: `self.occurances.update(self.to_n_gram_generator(text))`. -/
def NGramLM.train_on_text (lm : NGramLM) (text : List Char) : NGramLM :=
  { lm with occurances := lm.occurances + ↑(lm.to_n_gram_generator text) }

/-- Python `Counter.total()`: the sum of all counts, i.e. the multiset's card. -/
def NGramLM.total (lm : NGramLM) : ℕ :=
  Multiset.card lm.occurances

/-- Python `NGramLM._get_gram_log_probability`: `0` when the gram is not a key of the
counter, else `math.log10(count / total)`. -/
noncomputable def NGramLM.get_gram_log_probability (lm : NGramLM) (gram : Gram) : ℝ :=
  if lm.occurances.count gram = 0 then 0
  else Real.logb 10 ((lm.occurances.count gram : ℝ) / (lm.total : ℝ))

/-- Python `NGramLM.get_log_probability`: starts at `output = 0` and adds the gram
log-probability of each generated gram in order. -/
noncomputable def NGramLM.get_log_probability (lm : NGramLM) (text : List Char) : ℝ :=
  (lm.to_n_gram_generator text).foldl (fun output gram => output + lm.get_gram_log_probability gram) 0

/-- Python `NGramLM.add_one_smoothing`: `self.occurances.update(vocab)` — each gram of
the set gets one extra count. -/
def NGramLM.add_one_smoothing (lm : NGramLM) (vocab : Finset Gram) : NGramLM :=
  { lm with occurances := lm.occurances + vocab.val }

/-- Python `NGramLM.get_percent_unseen`: counts the generated grams and the unseen
ones among them, then returns `num_unseen / num_grams`.  When zero grams are
generated Python raises `ZeroDivisionError`, modelled as `none`. -/
def NGramLM.get_percent_unseen (lm : NGramLM) (text : List Char) : Option ℚ :=
  let num_unseen := ((lm.to_n_gram_generator text).filter fun gram => lm.occurances.count gram = 0).length
  let num_grams := (lm.to_n_gram_generator text).length
  if num_grams = 0 then none
  else some ((num_unseen : ℚ) / (num_grams : ℚ))

/-- Python `NGramLM.get_seen_grams`: `set(self.occurances.keys())`. -/
def NGramLM.get_seen_grams (lm : NGramLM) : Finset Gram :=
  lm.occurances.toFinset

/-- The `TextLanguage` literal type of the source. -/
inductive TextLanguage
  | malaysian
  | indonesian
  | tamil
  | other
deriving DecidableEq

/-- Source constant `OTHER_PERCENT_UNSEEN_THRESHOLD = 0.6`. -/
def OTHER_PERCENT_UNSEEN_THRESHOLD : ℚ := 3 / 5

/-- Python `classify_text` from `test_LM`: return `"other"` when the percent of
unseen grams against the malaysian model is at or above the threshold;
otherwise a running-best scan seeded with the malaysian score, moving only on
a strictly greater score (the two sequential `if prob > best_prob` updates,
written as nested conditionals).  A `ZeroDivisionError` from
`get_percent_unseen` propagates as `none`. -/
noncomputable def classify_text (malaysian_lm indonesian_lm tamil_lm : NGramLM)
    (text : List Char) : Option TextLanguage :=
  match malaysian_lm.get_percent_unseen text with
  | none => none
  | some percent_unseen =>
    if percent_unseen ≥ OTHER_PERCENT_UNSEEN_THRESHOLD then
      some TextLanguage.other
    else
      if indonesian_lm.get_log_probability text > malaysian_lm.get_log_probability text then
        if tamil_lm.get_log_probability text > indonesian_lm.get_log_probability text then
          some TextLanguage.tamil
        else
          some TextLanguage.indonesian
      else
        if tamil_lm.get_log_probability text > malaysian_lm.get_log_probability text then
          some TextLanguage.tamil
        else
          some TextLanguage.malaysian

/-- One step of `build_LM`'s training loop: the `match language` dispatch,
written as the equivalent if-chain; an unmatched label changes nothing. -/
def build_step (lms : NGramLM × NGramLM × NGramLM) (pair : String × List Char) :
    NGramLM × NGramLM × NGramLM :=
  if pair.1 = "malaysian" then (lms.1.train_on_text pair.2, lms.2.1, lms.2.2)
  else if pair.1 = "indonesian" then (lms.1, lms.2.1.train_on_text pair.2, lms.2.2)
  else if pair.1 = "tamil" then (lms.1, lms.2.1, lms.2.2.train_on_text pair.2)
  else lms

/-- Python `build_LM` on the already-parsed stream of `(label, text)` pairs (the
file reading and line splitting are the out-of-scope collaborator): three
fresh `n = 4` models, the dispatch loop, then add-one smoothing of each model
with the union of all seen grams, returned in malaysian/indonesian/tamil
order. -/
def build_LM (labelled_data : List (String × List Char)) :
    NGramLM × NGramLM × NGramLM :=
  let trained := labelled_data.foldl build_step (NGramLM.init 4, NGramLM.init 4, NGramLM.init 4)
  let gram_vocab :=
    trained.1.get_seen_grams ∪ trained.2.1.get_seen_grams ∪ trained.2.2.get_seen_grams
  (trained.1.add_one_smoothing gram_vocab,
   trained.2.1.add_one_smoothing gram_vocab,
   trained.2.2.add_one_smoothing gram_vocab)

/-- The multiset of grams a fresh width-4 model accumulates from exactly the
texts of `data` carrying `label`; used to state where `build_LM` dispatches
each pair. -/
def trained_grams (label : String) (data : List (String × List Char)) : Multiset Gram :=
  ((data.filter fun pair => pair.1 = label).map
    fun pair => ((NGramLM.init 4).to_n_gram_generator pair.2 : Multiset Gram)).sum

/-- The union vocabulary `build_LM` smooths with: all grams seen by any of
the three trained models. -/
def full_vocab (data : List (String × List Char)) : Finset Gram :=
  (trained_grams "malaysian" data).toFinset ∪ (trained_grams "indonesian" data).toFinset
    ∪ (trained_grams "tamil" data).toFinset

/-- One mutating model operation, for stating monotonicity over arbitrary
operation sequences. -/
inductive LMOp
  | ingest (text : List Char)
  | smooth (vocab : Finset Gram)

/-- Run one operation on a model. -/
def apply_op (lm : NGramLM) : LMOp → NGramLM
  | LMOp.ingest text => lm.train_on_text text
  | LMOp.smooth vocab => lm.add_one_smoothing vocab

/-- Run a sequence of operations on a model, left to right. -/
def apply_ops (lm : NGramLM) (ops : List LMOp) : NGramLM :=
  ops.foldl apply_op lm

/-! ### Basic lemmas about the generator -/

theorem length_to_n_gram_generator (lm : NGramLM) (text : List Char) :
    (lm.to_n_gram_generator text).length = text.length + 1 - lm.n := by
  simp [NGramLM.to_n_gram_generator]

theorem to_n_gram_generator_get (lm : NGramLM) (text : List Char) (i : ℕ)
    (h : i < (lm.to_n_gram_generator text).length) :
    (lm.to_n_gram_generator text).get ⟨i, h⟩ = (text.drop i).take lm.n := by
  simp [NGramLM.to_n_gram_generator]

theorem to_n_gram_generator_eq_nil (lm : NGramLM) (text : List Char)
    (h : text.length < lm.n) : lm.to_n_gram_generator text = [] := by
  have : text.length + 1 - lm.n = 0 := by omega
  simp [NGramLM.to_n_gram_generator, this]

/-! ### C1 -/

/-- C1: the gram generator yields exactly `max 0 (len - n + 1)` grams, the
`i`-th being the width-`n` substring of the text starting at offset `i`, each
of length exactly `n`; on `"Semua manus"` with `n = 4` it yields exactly the
eight expected grams, and a text shorter than `n` yields nothing. -/
theorem to_n_gram_generator_spec (lm : NGramLM) (text : List Char) :
    ((lm.to_n_gram_generator text).length : ℤ) = max 0 ((text.length : ℤ) - (lm.n : ℤ) + 1)
    ∧ (∀ i : ℕ, ∀ h : i < (lm.to_n_gram_generator text).length,
        (lm.to_n_gram_generator text).get ⟨i, h⟩ = (text.drop i).take lm.n
        ∧ ((lm.to_n_gram_generator text).get ⟨i, h⟩).length = lm.n)
    ∧ (text.length < lm.n → lm.to_n_gram_generator text = [])
    ∧ (NGramLM.init 4).to_n_gram_generator "Semua manus".toList
        = ["Semu".toList, "emua".toList, "mua ".toList, "ua m".toList,
           "a ma".toList, " man".toList, "manu".toList, "anus".toList] := by
  refine ⟨?_, ?_, to_n_gram_generator_eq_nil lm text, by decide⟩
  · rw [length_to_n_gram_generator]
    omega
  · intro i h
    rw [length_to_n_gram_generator] at h
    refine ⟨to_n_gram_generator_get lm text i (by rwa [length_to_n_gram_generator]), ?_⟩
    rw [to_n_gram_generator_get]
    simp only [List.length_take, List.length_drop]
    omega

/-- Witness for C1 at the concrete model `n = 4` and text `"Semua manus"`:
eleven characters give eight grams and the first one is `"Semu"`. -/
theorem to_n_gram_generator_spec_witness :
    ((NGramLM.init 4).to_n_gram_generator "Semua manus".toList).length = 8
    ∧ (NGramLM.init 4).to_n_gram_generator "Semua manus".toList
        = ["Semu".toList, "emua".toList, "mua ".toList, "ua m".toList,
           "a ma".toList, " man".toList, "manu".toList, "anus".toList] := by
  have h := to_n_gram_generator_spec (NGramLM.init 4) "Semua manus".toList
  exact ⟨by rw [h.2.2.2]; rfl, h.2.2.2⟩

/-! ### C2 -/

/-- A gram is a seen gram exactly when its count is nonzero. -/
theorem mem_get_seen_grams (lm : NGramLM) (gram : Gram) :
    gram ∈ lm.get_seen_grams ↔ lm.occurances.count gram ≠ 0 := by
  rw [NGramLM.get_seen_grams, Multiset.mem_toFinset, ← Multiset.count_pos]
  omega

/-- C2: the gram log-probability is exactly `0` for a gram the model has never
counted, and `log₁₀ (count / total mass)` otherwise, where the total mass is
the sum of all counts. -/
theorem get_gram_log_probability_spec (lm : NGramLM) (gram : Gram) :
    (gram ∉ lm.get_seen_grams → lm.get_gram_log_probability gram = 0)
    ∧ (gram ∈ lm.get_seen_grams →
        lm.get_gram_log_probability gram
          = Real.logb 10 ((lm.occurances.count gram : ℝ) / (lm.total : ℝ)))
    ∧ lm.total = ∑ g ∈ lm.get_seen_grams, lm.occurances.count g := by
  refine ⟨?_, ?_, ?_⟩
  · intro h
    rw [mem_get_seen_grams] at h
    simp [NGramLM.get_gram_log_probability, not_not.mp h]
  · intro h
    rw [mem_get_seen_grams] at h
    rw [NGramLM.get_gram_log_probability, if_neg h]
  · rw [NGramLM.total, NGramLM.get_seen_grams, Multiset.toFinset_sum_count_eq]

/-- Witness for C2: in the model trained on `"Semua manus"` (with `n = 4`),
the seen gram `"Semu"` has log-probability `log₁₀ (1 / 8)` and the unseen gram
`"zzzz"` has log-probability `0`. -/
theorem get_gram_log_probability_spec_witness :
    ((NGramLM.init 4).train_on_text "Semua manus".toList).get_gram_log_probability "Semu".toList
      = Real.logb 10 (1 / 8)
    ∧ ((NGramLM.init 4).train_on_text "Semua manus".toList).get_gram_log_probability "zzzz".toList
      = 0 := by
  constructor
  · have h := (get_gram_log_probability_spec
      ((NGramLM.init 4).train_on_text "Semua manus".toList) "Semu".toList).2.1 (by decide)
    rw [h]
    have hc : ((NGramLM.init 4).train_on_text "Semua manus".toList).occurances.count
        "Semu".toList = 1 := by decide
    have ht : ((NGramLM.init 4).train_on_text "Semua manus".toList).total = 8 := by decide
    rw [hc, ht]
    norm_num
  · exact (get_gram_log_probability_spec
      ((NGramLM.init 4).train_on_text "Semua manus".toList) "zzzz".toList).1 (by decide)

/-! ### C3 -/

theorem foldl_add_eq_sum_map (f : Gram → ℝ) (l : List Gram) (a : ℝ) :
    l.foldl (fun output gram => output + f gram) a = a + (l.map f).sum := by
  induction l generalizing a with
  | nil => simp
  | cons g l ih => simp [ih, add_assoc]

/-- C3: the text log-probability is the sum of the gram log-probabilities of
the generated grams; it is `0` for a text shorter than `n`; and on the model
trained on `"Semua manus"` (with `n = 4`) the text log-probability of the
first gram `"Semu"` is `log₁₀ (1 / 8)`. -/
theorem get_log_probability_spec (lm : NGramLM) (text : List Char) :
    lm.get_log_probability text
      = ((lm.to_n_gram_generator text).map lm.get_gram_log_probability).sum
    ∧ (text.length < lm.n → lm.get_log_probability text = 0)
    ∧ ((NGramLM.init 4).train_on_text "Semua manus".toList).get_log_probability "Semu".toList
      = Real.logb 10 (1 / 8) := by
  refine ⟨?_, ?_, ?_⟩
  · rw [NGramLM.get_log_probability, foldl_add_eq_sum_map, zero_add]
  · intro h
    rw [NGramLM.get_log_probability, to_n_gram_generator_eq_nil lm text h]
    rfl
  · have hgen : ((NGramLM.init 4).train_on_text "Semua manus".toList).to_n_gram_generator
        "Semu".toList = ["Semu".toList] := by decide
    have hc : ((NGramLM.init 4).train_on_text "Semua manus".toList).occurances.count
        "Semu".toList = 1 := by decide
    have ht : ((NGramLM.init 4).train_on_text "Semua manus".toList).total = 8 := by decide
    rw [NGramLM.get_log_probability, hgen]
    simp only [List.foldl_cons, List.foldl_nil, NGramLM.get_gram_log_probability, hc, ht]
    norm_num

/-- Witness for C3: the one-character text `"a"` is shorter than `n = 4`, and
its text log-probability on a fresh model is `0`. -/
theorem get_log_probability_spec_witness :
    (NGramLM.init 4).get_log_probability "a".toList = 0 :=
  (get_log_probability_spec (NGramLM.init 4) "a".toList).2.1 (by decide)

/-! ### C4 -/

/-- The count contributed by a `Finset`'s underlying multiset is `1` on
members and `0` elsewhere. -/
theorem count_finset_val (vocab : Finset Gram) (gram : Gram) :
    vocab.val.count gram = if gram ∈ vocab then 1 else 0 := by
  by_cases h : gram ∈ vocab
  · rw [if_pos h]
    exact Multiset.count_eq_one_of_mem vocab.nodup h
  · rw [if_neg h]
    exact Multiset.count_eq_zero_of_not_mem h

/-- C4: add-one smoothing increments the count of exactly the grams of the
given vocabulary by one, whether or not they were present, so applying it
twice increments them by two (it is not idempotent); and in the concrete
scenario — `"Semua manus"` ingested into a fresh `n = 4` model, then smoothed
with its eight grams plus `"1111"`, `"2222"`, `"3333"` — the text
log-probability of `"Semu"` is `log₁₀ (2 / 19)`. -/
theorem add_one_smoothing_spec (lm : NGramLM) (vocab : Finset Gram) (gram : Gram) :
    (lm.add_one_smoothing vocab).occurances.count gram
      = lm.occurances.count gram + (if gram ∈ vocab then 1 else 0)
    ∧ ((lm.add_one_smoothing vocab).add_one_smoothing vocab).occurances.count gram
      = lm.occurances.count gram + (if gram ∈ vocab then 2 else 0)
    ∧ (((NGramLM.init 4).train_on_text "Semua manus".toList).add_one_smoothing
          (["Semu".toList, "emua".toList, "mua ".toList, "ua m".toList, "a ma".toList,
            " man".toList, "manu".toList, "anus".toList,
            "1111".toList, "2222".toList, "3333".toList].toFinset)).get_log_probability
        "Semu".toList
      = Real.logb 10 (2 / 19) := by
  refine ⟨?_, ?_, ?_⟩
  · rw [NGramLM.add_one_smoothing, Multiset.count_add, count_finset_val]
  · rw [NGramLM.add_one_smoothing, NGramLM.add_one_smoothing]
    simp only [Multiset.count_add, count_finset_val]
    by_cases h : gram ∈ vocab <;> simp [h]
  · set lm2 := ((NGramLM.init 4).train_on_text "Semua manus".toList).add_one_smoothing
      (["Semu".toList, "emua".toList, "mua ".toList, "ua m".toList, "a ma".toList,
        " man".toList, "manu".toList, "anus".toList,
        "1111".toList, "2222".toList, "3333".toList].toFinset) with hlm2
    have hgen : lm2.to_n_gram_generator "Semu".toList = ["Semu".toList] := by decide
    have hc : lm2.occurances.count "Semu".toList = 2 := by decide
    have ht : lm2.total = 19 := by decide
    rw [NGramLM.get_log_probability, hgen]
    simp only [List.foldl_cons, List.foldl_nil, NGramLM.get_gram_log_probability, hc, ht]
    norm_num

/-! ### Dispatch lemmas for `classify_text` -/

theorem classify_text_of_percent_none (mal ind tam : NGramLM) (text : List Char)
    (h : mal.get_percent_unseen text = none) :
    classify_text mal ind tam text = none := by
  unfold classify_text
  rw [h]

theorem classify_text_of_percent_some (mal ind tam : NGramLM) (text : List Char) (p : ℚ)
    (h : mal.get_percent_unseen text = some p) :
    classify_text mal ind tam text =
      if p ≥ OTHER_PERCENT_UNSEEN_THRESHOLD then
        some TextLanguage.other
      else
        if ind.get_log_probability text > mal.get_log_probability text then
          if tam.get_log_probability text > ind.get_log_probability text then
            some TextLanguage.tamil
          else
            some TextLanguage.indonesian
        else
          if tam.get_log_probability text > mal.get_log_probability text then
            some TextLanguage.tamil
          else
            some TextLanguage.malaysian := by
  unfold classify_text
  rw [h]

theorem get_percent_unseen_eq (lm : NGramLM) (text : List Char) (k m : ℕ)
    (hk : ((lm.to_n_gram_generator text).filter
        fun gram => lm.occurances.count gram = 0).length = k)
    (hm : (lm.to_n_gram_generator text).length = m) (hm0 : m ≠ 0) :
    lm.get_percent_unseen text = some ((k : ℚ) / (m : ℚ)) := by
  simp only [NGramLM.get_percent_unseen, hk, hm, if_neg hm0]

/-! ### C5 -/

/-- C5: whenever the percent of unseen grams against the first (malaysian)
model reaches the `0.6` threshold, the classifier answers `"other"`, whatever
the second and third models are — in particular no log-probability comparison
is consulted. -/
theorem classify_text_threshold (mal ind tam : NGramLM) (text : List Char) (p : ℚ)
    (h1 : mal.get_percent_unseen text = some p)
    (h2 : p ≥ OTHER_PERCENT_UNSEEN_THRESHOLD) :
    classify_text mal ind tam text = some TextLanguage.other := by
  rw [classify_text_of_percent_some mal ind tam text p h1, if_pos h2]

/-- Witness for C5: on fresh models every gram of `"aaaa"` is unseen, the
percentage is `1 ≥ 0.6`, and the answer is `"other"`. -/
theorem classify_text_threshold_witness :
    classify_text (NGramLM.init 4) (NGramLM.init 4) (NGramLM.init 4) "aaaa".toList
      = some TextLanguage.other := by
  have h1 : (NGramLM.init 4).get_percent_unseen "aaaa".toList = some 1 := by
    rw [get_percent_unseen_eq (NGramLM.init 4) "aaaa".toList 1 1
      (by decide) (by decide) (by decide)]
    norm_num
  exact classify_text_threshold (NGramLM.init 4) (NGramLM.init 4) (NGramLM.init 4)
    "aaaa".toList 1 h1 (by norm_num [OTHER_PERCENT_UNSEEN_THRESHOLD])

/-! ### C6 -/

/-- C6: below the threshold the classifier picks the label of the strictly
greatest text log-probability, ties resolved in favour of the smaller label
index (malaysian over indonesian over tamil); in particular three numerically
equal scores yield `"malaysian"`. -/
theorem classify_text_argmax (mal ind tam : NGramLM) (text : List Char) (p : ℚ)
    (h1 : mal.get_percent_unseen text = some p)
    (h2 : p < OTHER_PERCENT_UNSEEN_THRESHOLD) :
    (classify_text mal ind tam text = some TextLanguage.malaysian
        ↔ ind.get_log_probability text ≤ mal.get_log_probability text
          ∧ tam.get_log_probability text ≤ mal.get_log_probability text)
    ∧ (classify_text mal ind tam text = some TextLanguage.indonesian
        ↔ mal.get_log_probability text < ind.get_log_probability text
          ∧ tam.get_log_probability text ≤ ind.get_log_probability text)
    ∧ (classify_text mal ind tam text = some TextLanguage.tamil
        ↔ mal.get_log_probability text < tam.get_log_probability text
          ∧ ind.get_log_probability text < tam.get_log_probability text)
    ∧ (mal.get_log_probability text = ind.get_log_probability text →
        mal.get_log_probability text = tam.get_log_probability text →
        classify_text mal ind tam text = some TextLanguage.malaysian) := by
  rw [classify_text_of_percent_some mal ind tam text p h1, if_neg (not_le.mpr h2)]
  split_ifs with h12 h23 h13
  · refine ⟨iff_of_false (by simp) ?_, iff_of_false (by simp) ?_, iff_of_true rfl ?_, ?_⟩
    · rintro ⟨a, _⟩; linarith
    · rintro ⟨_, b⟩; linarith
    · exact ⟨by linarith, by linarith⟩
    · intro e1 _; exfalso; rw [e1] at h12; exact lt_irrefl _ h12
  · have h23' : tam.get_log_probability text ≤ ind.get_log_probability text := not_lt.mp h23
    refine ⟨iff_of_false (by simp) ?_, iff_of_true rfl ⟨h12, h23'⟩,
      iff_of_false (by simp) ?_, ?_⟩
    · rintro ⟨a, _⟩; linarith
    · rintro ⟨_, b⟩; linarith
    · intro e1 _; exfalso; rw [e1] at h12; exact lt_irrefl _ h12
  · have h12' : ind.get_log_probability text ≤ mal.get_log_probability text := not_lt.mp h12
    refine ⟨iff_of_false (by simp) ?_, iff_of_false (by simp) ?_,
      iff_of_true rfl ⟨h13, by linarith⟩, ?_⟩
    · rintro ⟨_, b⟩; linarith
    · rintro ⟨a, _⟩; linarith
    · intro _ e2; exfalso; rw [e2] at h13; exact lt_irrefl _ h13
  · have h12' : ind.get_log_probability text ≤ mal.get_log_probability text := not_lt.mp h12
    have h13' : tam.get_log_probability text ≤ mal.get_log_probability text := not_lt.mp h13
    refine ⟨iff_of_true rfl ⟨h12', h13'⟩, iff_of_false (by simp) ?_,
      iff_of_false (by simp) ?_, fun _ _ => rfl⟩
    · rintro ⟨a, _⟩; linarith
    · rintro ⟨a, _⟩; linarith

/-- Witness for C6: three identical models trained on `"aaaa"` give three
equal scores for `"aaaa"` (and percent unseen `0 < 0.6`); the tie goes to
`"malaysian"`. -/
theorem classify_text_argmax_witness :
    classify_text ((NGramLM.init 4).train_on_text "aaaa".toList)
      ((NGramLM.init 4).train_on_text "aaaa".toList)
      ((NGramLM.init 4).train_on_text "aaaa".toList) "aaaa".toList
      = some TextLanguage.malaysian := by
  have h1 : ((NGramLM.init 4).train_on_text "aaaa".toList).get_percent_unseen "aaaa".toList
      = some 0 := by
    rw [get_percent_unseen_eq ((NGramLM.init 4).train_on_text "aaaa".toList) "aaaa".toList 0 1
      (by decide) (by decide) (by decide)]
    norm_num
  exact (classify_text_argmax ((NGramLM.init 4).train_on_text "aaaa".toList)
    ((NGramLM.init 4).train_on_text "aaaa".toList)
    ((NGramLM.init 4).train_on_text "aaaa".toList)
    "aaaa".toList 0 h1 (by norm_num [OTHER_PERCENT_UNSEEN_THRESHOLD])).2.2.2 rfl rfl

/-! ### C7 -/

/-- C7 exhibits the failure: the claim (and the spec) promise that a text
shorter than the gram length is classified without error, but the code's
`get_percent_unseen` then divides by `num_grams = 0` and raises
`ZeroDivisionError` (modelled as `none`), which aborts `classify_text` before
any label is produced — even though the text log-probability of such a text is
indeed `0` as the claim says.  Shown on the realistic pipeline state
`build_LM [("malaysian", "Semua manus")]` and the three-character test text
`"abc"`. -/
theorem classify_text_short_text_crash :
    (build_LM [("malaysian", "Semua manus".toList)]).1.get_percent_unseen "abc".toList = none
    ∧ classify_text (build_LM [("malaysian", "Semua manus".toList)]).1
        (build_LM [("malaysian", "Semua manus".toList)]).2.1
        (build_LM [("malaysian", "Semua manus".toList)]).2.2 "abc".toList = none
    ∧ (build_LM [("malaysian", "Semua manus".toList)]).1.get_log_probability "abc".toList = 0 := by
  refine ⟨by decide, classify_text_of_percent_none _ _ _ _ (by decide), ?_⟩
  rw [NGramLM.get_log_probability, to_n_gram_generator_eq_nil _ _ (by decide)]
  rfl

/-! ### C8 -/

/-- Counterexample to C8: the one-character text `"a"` is non-empty, yet the
fresh model's percent-unseen query does not return `1` — it raises
`ZeroDivisionError` (modelled as `none`), because `"a"` yields zero grams. -/
theorem get_percent_unseen_nonempty_counterexample :
    "a".toList.length = 1
    ∧ (NGramLM.init 4).get_percent_unseen "a".toList = none
    ∧ ¬ (NGramLM.init 4).get_percent_unseen "a".toList = some 1 := by
  decide

/-- C8 (amended): on a model trained on no data and never smoothed, the
percent-unseen query returns exactly `1` for every text long enough to yield
at least one gram (length at least `n`); shorter non-empty texts instead hit
the division-by-zero case. -/
theorem get_percent_unseen_fresh (n : ℕ) (text : List Char) (h : n ≤ text.length) :
    (NGramLM.init n).get_percent_unseen text = some 1 := by
  have hfilter : ((NGramLM.init n).to_n_gram_generator text).filter
      (fun gram => (NGramLM.init n).occurances.count gram = 0)
      = (NGramLM.init n).to_n_gram_generator text := by
    rw [List.filter_eq_self]
    intro a _
    simp [NGramLM.init]
  simp only [NGramLM.get_percent_unseen, hfilter, length_to_n_gram_generator]
  have h0 : text.length + 1 - (NGramLM.init n).n ≠ 0 := by
    simp only [NGramLM.init]
    omega
  rw [if_neg h0]
  congr 1
  rw [div_self]
  exact_mod_cast h0

/-- Witness for the amended C8: the fresh `n = 4` model reports every gram of
`"aaaa"` unseen, a percentage of exactly `1`. -/
theorem get_percent_unseen_fresh_witness :
    (NGramLM.init 4).get_percent_unseen "aaaa".toList = some 1 :=
  get_percent_unseen_fresh 4 "aaaa".toList (by decide)

/-! ### C9 -/

theorem trained_grams_cons (label : String) (pair : String × List Char)
    (data : List (String × List Char)) :
    trained_grams label (pair :: data)
      = (if pair.1 = label
          then (↑((NGramLM.init 4).to_n_gram_generator pair.2) : Multiset Gram)
          else 0)
        + trained_grams label data := by
  by_cases h : pair.1 = label
  · simp [trained_grams, List.filter_cons, h]
  · simp [trained_grams, List.filter_cons, h]

theorem build_step_foldl (data : List (String × List Char)) (a b c : Multiset Gram) :
    data.foldl build_step (⟨4, a⟩, ⟨4, b⟩, ⟨4, c⟩)
      = (⟨4, a + trained_grams "malaysian" data⟩,
         ⟨4, b + trained_grams "indonesian" data⟩,
         ⟨4, c + trained_grams "tamil" data⟩) := by
  induction data generalizing a b c with
  | nil => simp [trained_grams]
  | cons pair data ih =>
    rw [List.foldl_cons]
    by_cases h1 : pair.1 = "malaysian"
    · rw [show build_step (⟨4, a⟩, ⟨4, b⟩, ⟨4, c⟩) pair
          = (⟨4, a + ↑((NGramLM.init 4).to_n_gram_generator pair.2)⟩, ⟨4, b⟩, ⟨4, c⟩) by
        simp [build_step, h1, NGramLM.train_on_text]; rfl]
      rw [ih]
      simp [trained_grams_cons, h1, add_assoc]
    · by_cases h2 : pair.1 = "indonesian"
      · rw [show build_step (⟨4, a⟩, ⟨4, b⟩, ⟨4, c⟩) pair
            = (⟨4, a⟩, ⟨4, b + ↑((NGramLM.init 4).to_n_gram_generator pair.2)⟩, ⟨4, c⟩) by
          simp [build_step, h1, h2, NGramLM.train_on_text]; rfl]
        rw [ih]
        simp [trained_grams_cons, h1, h2, add_assoc]
      · by_cases h3 : pair.1 = "tamil"
        · rw [show build_step (⟨4, a⟩, ⟨4, b⟩, ⟨4, c⟩) pair
              = (⟨4, a⟩, ⟨4, b⟩, ⟨4, c + ↑((NGramLM.init 4).to_n_gram_generator pair.2)⟩) by
            simp [build_step, h1, h2, h3, NGramLM.train_on_text]; rfl]
          rw [ih]
          simp [trained_grams_cons, h1, h2, h3, add_assoc]
        · rw [show build_step (⟨4, a⟩, ⟨4, b⟩, ⟨4, c⟩) pair = (⟨4, a⟩, ⟨4, b⟩, ⟨4, c⟩) by
            simp [build_step, h1, h2, h3]]
          rw [ih]
          simp [trained_grams_cons, h1, h2, h3]

theorem build_LM_eq (data : List (String × List Char)) :
    build_LM data
      = (⟨4, trained_grams "malaysian" data + (full_vocab data).val⟩,
         ⟨4, trained_grams "indonesian" data + (full_vocab data).val⟩,
         ⟨4, trained_grams "tamil" data + (full_vocab data).val⟩) := by
  unfold build_LM
  rw [show ((NGramLM.init 4, NGramLM.init 4, NGramLM.init 4) :
      NGramLM × NGramLM × NGramLM) = (⟨4, 0⟩, ⟨4, 0⟩, ⟨4, 0⟩) from rfl]
  rw [build_step_foldl]
  simp [NGramLM.add_one_smoothing, NGramLM.get_seen_grams, full_vocab, zero_add]

theorem trained_grams_filter_trainable (label : String)
    (hl : label = "malaysian" ∨ label = "indonesian" ∨ label = "tamil")
    (data : List (String × List Char)) :
    trained_grams label (data.filter fun pair =>
        pair.1 = "malaysian" ∨ pair.1 = "indonesian" ∨ pair.1 = "tamil")
      = trained_grams label data := by
  induction data with
  | nil => rfl
  | cons pair data ih =>
    rw [List.filter_cons]
    by_cases h : pair.1 = "malaysian" ∨ pair.1 = "indonesian" ∨ pair.1 = "tamil"
    · rw [if_pos (by simpa using h), trained_grams_cons, trained_grams_cons, ih]
    · rw [if_neg (by simpa using h), ih, trained_grams_cons]
      have hne : pair.1 ≠ label := by
        intro e
        rw [e] at h
        exact h hl
      rw [if_neg hne, zero_add]

/-- C9: the builder is exactly: one fresh `n = 4` model per trainable label,
each `(label, text)` pair ingested only by the model of its label, then each
of the three models smoothed with the union of all three seen-gram sets, the
triple returned in malaysian/indonesian/tamil order — and a stream stripped
of its non-trainable-label pairs builds the very same models, so unknown
labels are silently skipped without affecting any model. -/
theorem build_LM_spec (data : List (String × List Char)) :
    build_LM data
      = (⟨4, trained_grams "malaysian" data + (full_vocab data).val⟩,
         ⟨4, trained_grams "indonesian" data + (full_vocab data).val⟩,
         ⟨4, trained_grams "tamil" data + (full_vocab data).val⟩)
    ∧ build_LM (data.filter fun pair =>
          pair.1 = "malaysian" ∨ pair.1 = "indonesian" ∨ pair.1 = "tamil")
        = build_LM data := by
  refine ⟨build_LM_eq data, ?_⟩
  rw [build_LM_eq, build_LM_eq]
  rw [trained_grams_filter_trainable "malaysian" (Or.inl rfl),
    trained_grams_filter_trainable "indonesian" (Or.inr (Or.inl rfl)),
    trained_grams_filter_trainable "tamil" (Or.inr (Or.inr rfl))]
  have hv : full_vocab (data.filter fun pair =>
      pair.1 = "malaysian" ∨ pair.1 = "indonesian" ∨ pair.1 = "tamil") = full_vocab data := by
    unfold full_vocab
    rw [trained_grams_filter_trainable "malaysian" (Or.inl rfl),
      trained_grams_filter_trainable "indonesian" (Or.inr (Or.inl rfl)),
      trained_grams_filter_trainable "tamil" (Or.inr (Or.inr rfl))]
  rw [hv]

/-! ### C10 -/

theorem count_le_train_on_text (lm : NGramLM) (text : List Char) (gram : Gram) :
    lm.occurances.count gram ≤ (lm.train_on_text text).occurances.count gram := by
  simp only [NGramLM.train_on_text, Multiset.count_add]
  exact Nat.le_add_right _ _

theorem count_le_add_one_smoothing (lm : NGramLM) (vocab : Finset Gram) (gram : Gram) :
    lm.occurances.count gram ≤ (lm.add_one_smoothing vocab).occurances.count gram := by
  simp only [NGramLM.add_one_smoothing, Multiset.count_add]
  exact Nat.le_add_right _ _

theorem count_le_apply_op (lm : NGramLM) (op : LMOp) (gram : Gram) :
    lm.occurances.count gram ≤ (apply_op lm op).occurances.count gram := by
  cases op with
  | ingest text => exact count_le_train_on_text lm text gram
  | smooth vocab => exact count_le_add_one_smoothing lm vocab gram

theorem count_le_apply_ops (lm : NGramLM) (ops : List LMOp) (gram : Gram) :
    lm.occurances.count gram ≤ (apply_ops lm ops).occurances.count gram := by
  induction ops generalizing lm with
  | nil => exact le_refl _
  | cons op ops ih =>
    exact le_trans (count_le_apply_op lm op gram) (ih (apply_op lm op))

theorem seen_subset_of_count_le (lm lm2 : NGramLM)
    (h : ∀ gram : Gram, lm.occurances.count gram ≤ lm2.occurances.count gram) :
    lm.get_seen_grams ⊆ lm2.get_seen_grams := by
  intro a ha
  rw [mem_get_seen_grams] at ha ⊢
  have := h a
  omega

/-- C10: neither mutating operation (ingest nor add-one smoothing) ever
removes a gram or decreases a count, so both each gram's count and the
seen-gram set grow monotonically along any sequence of operations. -/
theorem lm_monotone (lm : NGramLM) (gram : Gram) (text : List Char)
    (vocab : Finset Gram) (ops : List LMOp) :
    lm.occurances.count gram ≤ (lm.train_on_text text).occurances.count gram
    ∧ lm.occurances.count gram ≤ (lm.add_one_smoothing vocab).occurances.count gram
    ∧ lm.get_seen_grams ⊆ (lm.train_on_text text).get_seen_grams
    ∧ lm.get_seen_grams ⊆ (lm.add_one_smoothing vocab).get_seen_grams
    ∧ lm.occurances.count gram ≤ (apply_ops lm ops).occurances.count gram
    ∧ lm.get_seen_grams ⊆ (apply_ops lm ops).get_seen_grams :=
  ⟨count_le_train_on_text lm text gram,
   count_le_add_one_smoothing lm vocab gram,
   seen_subset_of_count_le _ _ (count_le_train_on_text lm text),
   seen_subset_of_count_le _ _ (count_le_add_one_smoothing lm vocab),
   count_le_apply_ops lm ops gram,
   seen_subset_of_count_le _ _ (fun g => count_le_apply_ops lm ops g)⟩
